import Mathlib

/-!
Verification of the TracAdvancedSearchPlugin request-handling component
(`advsearch.py`): a shallow embedding of its request parsing, cross-provider
merge, link resolution, and pagination-cursor ("start points") logic,
together with theorems settling the specification's claims about it.

Conventions of the embedding:
* Trac request arguments are an ordered list of `(name, value)` string pairs;
  `getfirst` returns the first value for a name (or `none`), `getlist` all
  values in order, mirroring `req.args.getfirst` / `req.args.getlist`.
* Python `int(s)` on a string is modelled by `pyInt?`; a `ValueError`
  corresponds to `none`.
* Python dictionaries are modelled as association lists with
  insertion-ordered keys (`alookup` finds the binding, `dinsert` updates in
  place or appends, `bump` mirrors the read-modify-write in
  `StartPoints.format`).
* `list.sort(key=itemgetter('score'), reverse=True)` is a stable descending
  sort by `score`; it is embedded as `List.insertionSort scoreGE`, which has
  exactly the stable descending behaviour (CPython's sort is stable and
  `reverse=True` preserves stability, so any stable sort is extensionally
  the same function).
* Python's slice `l[:n]` (with possibly negative `n`) is `pySlice`.
-/

/-- Request arguments: ordered (parameter name, value) pairs. -/
def Args : Type := List (String × String)

/-- Model of `req.args.getfirst(name)`: first value bound to `name`. -/
def getfirst : List (String × String) → String → Option String
  | [], _ => none
  | (k, v) :: t, n => if k = n then some v else getfirst t n

/-- Model of `req.args.getfirst(name, default)`. -/
def getfirstD (args : List (String × String)) (n : String) (d : String) : String :=
  (getfirst args n).getD d

/-- Model of `req.args.getlist(name)`: all values bound to `name`, in order. -/
def getlist (args : List (String × String)) (n : String) : List String :=
  (args.filter (fun p => p.1 == n)).map Prod.snd

/-- A Python value that is either a string (a raw request parameter) or an
integer (such as the default `0` in `StartPoints.parse_args`). -/
inductive PyVal where
  | pstr (s : String)
  | pint (n : Int)
deriving DecidableEq, Repr

/-- All characters are decimal digits. -/
def allDigits (cs : List Char) : Bool := cs.all (fun c => c.isDigit)

/-- The numeric value of a list of decimal digits. -/
def digitsToNat (cs : List Char) : Nat :=
  cs.foldl (fun n c => 10 * n + (c.toNat - 48)) 0

/-- Model of Python `int(s)` on a string: an optionally `-`-signed non-empty
run of decimal digits parses to its value, anything else raises
`ValueError`, modelled as `none`. -/
def pyInt? (s : String) : Option Int :=
  match s.data with
  | [] => none
  | '-' :: rest =>
      if !rest.isEmpty && allDigits rest then some (-(digitsToNat rest : Int)) else none
  | cs => if allDigits cs then some ((digitsToNat cs : Int)) else none

/-- Model of `int(v)` wrapped in `try ... except` with fallback `0`, as in
`StartPoints.format`: an integer is returned as is, a string is parsed and a
parse failure yields `0`. -/
def pyToInt : PyVal → Int
  | .pint n => n
  | .pstr s => (pyInt? s).getD 0

/-- Association-list lookup (model of Python `dict.__getitem__` / `get`). -/
def alookup {β : Type} : List (String × β) → String → Option β
  | [], _ => none
  | (k, v) :: t, n => if k = n then some v else alookup t n

/-- Association-list insertion with Python-dict semantics: update the value
in place when the key is present, otherwise append. -/
def dinsert {β : Type} : List (String × β) → String → β → List (String × β)
  | [], n, v => [(n, v)]
  | (k, w) :: t, n, v => if k = n then (k, v) :: t else (k, w) :: dinsert t n v

/-- A backend search result, with the fields the `IAdvSearchBackend`
contract requires (`title`, `score`, `source`, `summary`, `date`, `author`).
The numeric `score` is modelled as an integer. -/
structure Result where
  title : String
  score : Int
  source : String
  summary : String
  date : String
  author : String
deriving DecidableEq, Repr

/-- A result after `_merge_results` has tagged it with the key
`backend_name` naming its originating provider. -/
structure TaggedResult where
  title : String
  score : Int
  source : String
  summary : String
  date : String
  author : String
  backend_name : String
deriving DecidableEq, Repr

/-- Tagging one record with its provider name (the mutation
`result_dict['backend_name'] = backend_name`). -/
def tag (backend_name : String) (r : Result) : TaggedResult :=
  { title := r.title, score := r.score, source := r.source,
    summary := r.summary, date := r.date, author := r.author,
    backend_name := backend_name }

/-- Tag every provider's records and concatenate the lists in the map's
iteration order (the first loop of `_merge_results`). -/
def tagAll (result_map : List (String × List Result)) : List TaggedResult :=
  (result_map.map (fun p => p.2.map (tag p.1))).flatten

/-- The comparison of the descending sort in `_merge_results`: `a` may come
before `b` iff `a`'s score is at least `b`'s. -/
def scoreGE (a b : TaggedResult) : Prop := b.score ≤ a.score

instance : DecidableRel scoreGE := fun a b => Int.decLe b.score a.score

instance : IsTotal TaggedResult scoreGE :=
  ⟨fun a b => by unfold scoreGE; exact Int.le_total b.score a.score⟩

instance : IsTrans TaggedResult scoreGE :=
  ⟨fun _ _ _ h1 h2 => le_trans h2 h1⟩

/-- Python's slice `l[:n]` for an arbitrary integer `n`: a negative bound
counts from the end. -/
def pySlice {α : Type} (l : List α) (n : Int) : List α :=
  if n < 0 then l.take (l.length - (-n).toNat) else l.take n.toNat

/-- `AdvancedSearchPlugin._merge_results`: tag each record with its
provider's name, concatenate, sort by score descending (stable), and slice
to the first `per_page` records. -/
def merge_results (result_map : List (String × List Result)) (per_page : Int) :
    List TaggedResult :=
  pySlice (List.insertionSort scoreGE (tagAll result_map)) per_page

/-- A merged result after `_add_href_to_results`: the tagged record plus an
optional display link. -/
structure LinkedResult where
  tagged : TaggedResult
  href : Option String
deriving DecidableEq, Repr

/-- `AdvancedSearchPlugin._add_href_to_results`: give each record whose
`source` is `wiki` an `href` built from its title by the environment's wiki
link builder; records with any other source get no link. -/
def add_href_to_results (wiki_href : String → String)
    (results : List TaggedResult) : List LinkedResult :=
  results.map (fun r =>
    { tagged := r,
      href := if r.source = "wiki" then some (wiki_href r.title) else none })

namespace StartPoints

/-- `StartPoints.FORMAT_STRING % name`. -/
def formatKey (name : String) : String := "provider_start_point:" ++ name

/-- The raw value `req_args.getfirst(FORMAT_STRING % name, 0)`: the first
string bound to the parameter, or the integer default `0`. -/
def rawStart (req_args : List (String × String)) (name : String) : PyVal :=
  match getfirst req_args (formatKey name) with
  | some s => .pstr s
  | none => .pint 0

/-- `StartPoints.parse_args`: a dict from each provider's name to its raw
incoming start-point value. -/
def parse_args (req_args : List (String × String))
    (provider_names : List String) : List (String × PyVal) :=
  provider_names.foldl (fun acc n => dinsert acc n (rawStart req_args n)) []

/-- `int(prev_start_points.get(backend_name, 0))` under `try ... except`:
missing key or unparsable string give `0`. -/
def prevStart (prev : List (String × PyVal)) (name : String) : Int :=
  match alookup prev name with
  | none => 0
  | some v => pyToInt v

/-- One step of the loop in `StartPoints.format`: increment the offset for
`name`, first initialising it to `init` if `name` has no entry yet. -/
def bump : List (String × Int) → String → Int → List (String × Int)
  | [], n, init => [(n, init + 1)]
  | (k, v) :: t, n, init =>
      if k = n then (k, v + 1) :: t else (k, v) :: bump t n init

/-- The loop of `StartPoints.format`: walk the page's results and count each
record against its provider's offset, seeding a provider's entry from the
previous start points on first sight. -/
def formatLoop (prev : List (String × PyVal)) :
    List TaggedResult → List (String × Int) → List (String × Int)
  | [], acc => acc
  | r :: rest, acc =>
      formatLoop prev rest (bump acc r.backend_name (prevStart prev r.backend_name))

/-- The updated start-point dict computed by `StartPoints.format` before
serialization. -/
def startPoints (results : List TaggedResult)
    (prev : List (String × PyVal)) : List (String × Int) :=
  formatLoop prev results []

/-- JSON string literal (the provider names serialized here are plain
identifiers; escaping of quote and backslash is included for totality). -/
def jstr (s : String) : String :=
  "\"" ++ String.join (s.data.map (fun c =>
    if c = '\\' then "\\\\" else if c = '"' then "\\\"" else String.singleton c)) ++ "\""

/-- `simplejson.dumps` of one `{'name': ..., 'value': ...}` pair. -/
def dumpsPair (p : String × Int) : String :=
  "\x7b\"name\": " ++ jstr p.1 ++ ", \"value\": " ++ toString p.2 ++ "\x7d"

/-- `simplejson.dumps` of the list of name/value pairs. -/
def dumpsPairs (l : List (String × Int)) : String :=
  "[" ++ String.intercalate ", " (l.map dumpsPair) ++ "]"

/-- `StartPoints.format`: the serialized updated start points for the page. -/
def format (results : List TaggedResult)
    (prev : List (String × PyVal)) : String :=
  dumpsPairs ((startPoints results prev).map (fun p => (formatKey p.1, p.2)))

end StartPoints

/-- How many of the page's records belong to the provider `name`. -/
def countB (name : String) (results : List TaggedResult) : Int :=
  ((results.filter (fun r => r.backend_name == name)).length : Int)

/-- A source-filter entry built by `_get_filter_dicts`. -/
structure SourceFilter where
  name : String
  active : Option String
deriving DecidableEq, Repr

/-- The Trac `Paginator` as a data container (its pagination arithmetic is
framework code and not needed by any claim). -/
structure Paginator where
  results : List LinkedResult
  page : Int
  max_per_page : Int
  num_items : Int
deriving DecidableEq, Repr

/-- A value stored in the `data` dict built by `process_request`. -/
inductive Val where
  | vnone
  | vstr (s : String)
  | vint (n : Int)
  | vlist (l : List String)
  | vsp (m : List (String × PyVal))
  | vfilters (l : List SourceFilter)
  | vresults (p : Paginator)
deriving DecidableEq, Repr

/-- `Option String` as a `Val` (a parameter that may be absent). -/
def optVal : Option String → Val
  | none => .vnone
  | some s => .vstr s

/-- A registered `IAdvSearchBackend` provider: its name and its
`query_backend`, returning a total count and a result list. -/
structure Provider where
  name : String
  query : List (String × Val) → Int × List Result

/-- `AdvancedSearchPlugin.DEFAULT_PER_PAGE`. -/
def DEFAULT_PER_PAGE : Int := 10

/-- `SOURCE_FILTERS = ('wiki', 'ticket')`. -/
def SOURCE_FILTERS : List String := ["wiki", "ticket"]

/-- `int(req.args.getfirst('per_page', DEFAULT_PER_PAGE))` with the
`ValueError` handler falling back to the default. -/
def perPageOf (args : List (String × String)) : Int :=
  match getfirst args "per_page" with
  | none => DEFAULT_PER_PAGE
  | some s =>
    match pyInt? s with
    | some k => k
    | none => DEFAULT_PER_PAGE

/-- `int(req.args.getfirst('page', 1))` with the `ValueError` handler
falling back to `1`. -/
def pageOf (args : List (String × String)) : Int :=
  match getfirst args "page" with
  | none => 1
  | some s =>
    match pyInt? s with
    | some k => k
    | none => 1

/-- Python truthiness test `not query` on `req.args.get('q')`: true when the
parameter is absent or its value is the empty string. -/
def isEmptyQuery : Option String → Bool
  | none => true
  | some s => s == ""

/-- `_get_filter_dicts`: one dict per source filter, with the first bound
value of the filter's request parameter as its `active` flag. -/
def get_filter_dicts (filter_list : List String)
    (req_args : List (String × String)) : List SourceFilter :=
  filter_list.map (fun f => { name := f, active := getfirst req_args f })

/-- The criteria dict built by `process_request` and handed to every
provider's `query_backend` (the state of `data` at the query loop). -/
def criteria_of (args : List (String × String))
    (provider_names : List String) : List (String × Val) :=
  [("source", .vlist (getlist args "source_filters")),
   ("author", .vlist ((getlist args "author").filter (fun a => a ≠ ""))),
   ("date_start", optVal (getfirst args "date_start")),
   ("date_end", optVal (getfirst args "date_end")),
   ("q", optVal (getfirst args "q")),
   ("start_points", .vsp (StartPoints.parse_args args provider_names))]

/-- The observable outcome of `process_request`: the `data` dict handed to
the template, and the sequence of `query_backend` calls made (provider name
paired with the criteria dict it received). -/
structure ProcOutcome where
  data : List (String × Val)
  calls : List (String × List (String × Val))

/-- `AdvancedSearchPlugin.process_request` (its pure content: permission
checking, stylesheets and pagination links are presentation effects carrying
no claim). `wiki_href` stands for the environment's wiki link builder. -/
def process_request (wiki_href : String → String)
    (args : List (String × String)) (providers : List Provider) : ProcOutcome :=
  let query := getfirst args "q"
  let per_page := perPageOf args
  let page := pageOf args
  let names := providers.map Provider.name
  let data0 := criteria_of args names
  if isEmptyQuery query then
    { data := data0, calls := [] }
  else
    let calls := providers.map (fun p => (p.name, data0))
    let result_map := providers.map (fun p => (p.name, (p.query data0).2))
    let total_count := (providers.map (fun p => (p.query data0).1)).sum
    let results := merge_results result_map per_page
    let linked := add_href_to_results wiki_href results
    let data1 := data0 ++
      [("source_filters", .vfilters (get_filter_dicts SOURCE_FILTERS args)),
       ("per_page", .vint per_page),
       ("page", .vint page),
       ("results", .vresults
         { results := linked, page := page - 1,
           max_per_page := per_page, num_items := total_count })]
    { data := data1, calls := calls }

/-- What the specification means by a stable descending sort by `score`:
the output is sorted by non-increasing score, and for every score value the
records carrying it appear in the same order as in the input (ties retain
their relative input order). Together these determine the output uniquely,
and they force it to be a permutation of the input. -/
def IsStableDescSortOf (input out : List TaggedResult) : Prop :=
  List.Sorted scoreGE out ∧
  ∀ k : Int, out.filter (fun r => r.score == k) = input.filter (fun r => r.score == k)

/-- A sample backend record (for concrete instances of the theorems). -/
def mkResult (t : String) (sc : Int) (src : String) : Result :=
  { title := t, score := sc, source := src, summary := "s", date := "d", author := "a" }

/-- A sample tagged record (for concrete instances of the theorems). -/
def mkTagged (b : String) (sc : Int) : TaggedResult :=
  { title := "T", score := sc, source := "wiki", summary := "s", date := "d",
    author := "a", backend_name := b }

/-- A sample provider-to-results map with a cross-provider score tie. -/
def sampleMap : List (String × List Result) :=
  [("alpha", [mkResult "A1" 3 "wiki", mkResult "A2" 1 "ticket"]),
   ("beta", [mkResult "B1" 3 "wiki", mkResult "B2" 5 "ticket"])]

/-- A sample environment wiki link builder. -/
def sampleWikiHref (t : String) : String := "/wiki/" ++ t

/-- Sample request arguments with a query and explicit paging. -/
def ceArgs : List (String × String) := [("q", "trac"), ("per_page", "5"), ("page", "2")]

/-- Sample request arguments with an unparsable `per_page` and no `page`. -/
def badArgs : List (String × String) := [("per_page", "ten")]

/-- Sample request arguments with no `q` parameter. -/
def emptyQArgs : List (String × String) := [("per_page", "5")]

/-- Sample request arguments with start points: a parsable one, a malformed
one, and one for a provider that is not registered. -/
def spArgs : List (String × String) :=
  [("provider_start_point:p1", "7"), ("provider_start_point:p2", "x"),
   ("provider_start_point:ghost", "3")]

/-- A sample provider. -/
def ceProvider : Provider :=
  { name := "p1", query := fun _ => (2, [mkResult "W" 4 "wiki"]) }

theorem alookup_dinsert {β : Type} (l : List (String × β)) (k n : String) (v : β) :
    alookup (dinsert l k v) n = if k = n then some v else alookup l n := by
  induction l with
  | nil => simp [dinsert, alookup]
  | cons hd t ih =>
    obtain ⟨k', w⟩ := hd
    by_cases hk : k' = k
    · subst hk
      by_cases hn : k' = n <;> simp [dinsert, alookup, hn]
    · by_cases hn : k' = n
      · subst hn
        have hkn : ¬ k = k' := fun h => hk h.symm
        simp [dinsert, alookup, hk, hkn]
      · simp [dinsert, alookup, hk, hn, ih]

theorem alookup_parse_args_aux (args : List (String × String))
    (providers : List String) (acc : List (String × PyVal)) (n : String) :
    alookup (providers.foldl (fun a m => dinsert a m (StartPoints.rawStart args m)) acc) n =
      if n ∈ providers then some (StartPoints.rawStart args n) else alookup acc n := by
  induction providers generalizing acc with
  | nil => simp
  | cons p t ih =>
    rw [List.foldl_cons, ih]
    by_cases hpt : n ∈ t
    · simp [hpt]
    · by_cases hpn : p = n
      · subst hpn
        simp [hpt, alookup_dinsert]
      · have hnp : ¬ n = p := fun h => hpn h.symm
        simp [hpt, hpn, alookup_dinsert, List.mem_cons, hnp]

theorem alookup_parse_args (args : List (String × String))
    (providers : List String) (n : String) :
    alookup (StartPoints.parse_args args providers) n =
      if n ∈ providers then some (StartPoints.rawStart args n) else none := by
  rw [StartPoints.parse_args, alookup_parse_args_aux]
  rfl

theorem mem_keys_iff_alookup {β : Type} (l : List (String × β)) (n : String) :
    n ∈ l.map Prod.fst ↔ (alookup l n).isSome := by
  induction l with
  | nil => simp [alookup]
  | cons hd t ih =>
    obtain ⟨k, v⟩ := hd
    by_cases hk : k = n
    · subst hk; simp [alookup]
    · have hnk : ¬ n = k := fun h => hk h.symm
      simp [alookup, hk, hnk, ih]

/-- Claim C10: the key set of the dict returned by `StartPoints.parse_args`
is exactly the set of registered provider names — every registered provider
gets an entry, and no `provider_start_point:<name>` request parameter for an
unregistered name produces one. -/
theorem parse_args_key_set (args : List (String × String))
    (providers : List String) (n : String) :
    n ∈ (StartPoints.parse_args args providers).map Prod.fst ↔ n ∈ providers := by
  rw [mem_keys_iff_alookup, alookup_parse_args]
  by_cases h : n ∈ providers <;> simp [h]

/-- Concrete instance of `parse_args_key_set`: the registered provider `p1`
gets a key; the unregistered `ghost` does not, although the request carries
a start point parameter for it. -/
theorem parse_args_key_set_witness :
    ("p1" ∈ (StartPoints.parse_args spArgs ["p1", "p2"]).map Prod.fst ↔ "p1" ∈ ["p1", "p2"]) ∧
    ("ghost" ∈ (StartPoints.parse_args spArgs ["p1", "p2"]).map Prod.fst ↔ "ghost" ∈ ["p1", "p2"]) :=
  ⟨parse_args_key_set spArgs ["p1", "p2"] "p1",
   parse_args_key_set spArgs ["p1", "p2"] "ghost"⟩

/-- Claim C4: for a registered provider, the parsed incoming start-point
value (the raw `provider_start_point:<name>` parameter followed by the
guarded integer conversion in `StartPoints.format`) is `0` when the
parameter is absent or malformed, and the supplied integer otherwise. -/
theorem start_point_default_on_missing_or_malformed (args : List (String × String))
    (providers : List String) (n : String) (h : n ∈ providers) :
    alookup (StartPoints.parse_args args providers) n = some (StartPoints.rawStart args n) ∧
    (getfirst args (StartPoints.formatKey n) = none →
      pyToInt (StartPoints.rawStart args n) = 0) ∧
    (∀ s, getfirst args (StartPoints.formatKey n) = some s → pyInt? s = none →
      pyToInt (StartPoints.rawStart args n) = 0) ∧
    (∀ s k, getfirst args (StartPoints.formatKey n) = some s → pyInt? s = some k →
      pyToInt (StartPoints.rawStart args n) = k) := by
  refine ⟨by rw [alookup_parse_args]; simp [h], ?_, ?_, ?_⟩
  · intro hg; simp [StartPoints.rawStart, hg, pyToInt]
  · intro s hg hs; simp [StartPoints.rawStart, hg, pyToInt, hs]
  · intro s k hg hs; simp [StartPoints.rawStart, hg, pyToInt, hs]

/-- Concrete instance of `start_point_default_on_missing_or_malformed`:
`p1` supplies `7`, `p2` supplies the malformed `x`, `p3` supplies nothing. -/
theorem start_point_default_witness :
    alookup (StartPoints.parse_args spArgs ["p1", "p2", "p3"]) "p1" =
      some (StartPoints.rawStart spArgs "p1") ∧
    pyToInt (StartPoints.rawStart spArgs "p1") = 7 ∧
    pyToInt (StartPoints.rawStart spArgs "p2") = 0 ∧
    pyToInt (StartPoints.rawStart spArgs "p3") = 0 :=
  ⟨(start_point_default_on_missing_or_malformed spArgs ["p1", "p2", "p3"] "p1" (by decide)).1,
   (start_point_default_on_missing_or_malformed spArgs ["p1", "p2", "p3"] "p1"
     (by decide)).2.2.2 "7" 7 (by decide) (by decide),
   (start_point_default_on_missing_or_malformed spArgs ["p1", "p2", "p3"] "p2"
     (by decide)).2.2.1 "x" (by decide) (by decide),
   (start_point_default_on_missing_or_malformed spArgs ["p1", "p2", "p3"] "p3"
     (by decide)).2.1 (by decide)⟩

/-- Claim C6: `process_request` falls back to the default `per_page` of 10
and `page` of 1 exactly on a missing or non-integer parameter, and uses the
supplied integer otherwise. -/
theorem page_per_page_defaults (args : List (String × String)) :
    (getfirst args "per_page" = none → perPageOf args = 10) ∧
    (∀ s, getfirst args "per_page" = some s → pyInt? s = none → perPageOf args = 10) ∧
    (∀ s k, getfirst args "per_page" = some s → pyInt? s = some k → perPageOf args = k) ∧
    (getfirst args "page" = none → pageOf args = 1) ∧
    (∀ s, getfirst args "page" = some s → pyInt? s = none → pageOf args = 1) ∧
    (∀ s k, getfirst args "page" = some s → pyInt? s = some k → pageOf args = k) := by
  refine ⟨?_, ?_, ?_, ?_, ?_, ?_⟩
  · intro hg; simp [perPageOf, hg, DEFAULT_PER_PAGE]
  · intro s hg hs; simp [perPageOf, hg, hs, DEFAULT_PER_PAGE]
  · intro s k hg hs; simp [perPageOf, hg, hs]
  · intro hg; simp [pageOf, hg]
  · intro s hg hs; simp [pageOf, hg, hs]
  · intro s k hg hs; simp [pageOf, hg, hs]

/-- Concrete instance of `page_per_page_defaults`: supplied integers are
used; a malformed `per_page` and a missing `page` fall back to 10 and 1. -/
theorem page_per_page_defaults_witness :
    perPageOf ceArgs = 5 ∧ pageOf ceArgs = 2 ∧
    perPageOf badArgs = 10 ∧ pageOf badArgs = 1 :=
  ⟨(page_per_page_defaults ceArgs).2.2.1 "5" 5 (by decide) (by decide),
   (page_per_page_defaults ceArgs).2.2.2.2.2 "2" 2 (by decide) (by decide),
   (page_per_page_defaults badArgs).2.1 "ten" (by decide) (by decide),
   (page_per_page_defaults badArgs).2.2.2.1 (by decide)⟩

theorem alookup_bump (acc : List (String × Int)) (b n : String) (init : Int) :
    alookup (StartPoints.bump acc b init) n =
      if b = n then
        match alookup acc n with
        | some v => some (v + 1)
        | none => some (init + 1)
      else alookup acc n := by
  induction acc with
  | nil => by_cases h : b = n <;> simp [StartPoints.bump, alookup, h]
  | cons hd t ih =>
    obtain ⟨k, v⟩ := hd
    by_cases hkb : k = b
    · subst hkb
      by_cases hkn : k = n <;> simp [StartPoints.bump, alookup, hkn]
    · by_cases hkn : k = n
      · subst hkn
        have hbk : ¬ b = k := fun h => hkb h.symm
        simp [StartPoints.bump, alookup, hkb, hbk]
      · simp [StartPoints.bump, alookup, hkb, hkn, ih]

theorem countB_nonneg (n : String) (results : List TaggedResult) : 0 ≤ countB n results := by
  simp [countB]

theorem countB_cons (n : String) (r : TaggedResult) (rest : List TaggedResult) :
    countB n (r :: rest) =
      countB n rest + (if r.backend_name = n then 1 else 0) := by
  by_cases h : r.backend_name = n <;> simp [countB, List.filter_cons, h]

theorem alookup_formatLoop (prev : List (String × PyVal)) (results : List TaggedResult)
    (acc : List (String × Int)) (n : String) :
    alookup (StartPoints.formatLoop prev results acc) n =
      match alookup acc n with
      | some v => some (v + countB n results)
      | none =>
        if countB n results = 0 then none
        else some (StartPoints.prevStart prev n + countB n results) := by
  induction results generalizing acc with
  | nil =>
    cases h : alookup acc n <;> simp [StartPoints.formatLoop, countB, h]
  | cons r rest ih =>
    rw [StartPoints.formatLoop, ih, alookup_bump, countB_cons]
    by_cases hb : r.backend_name = n
    · rw [if_pos hb]
      cases h : alookup acc n with
      | some v =>
        simp only [h, if_pos hb]
        have : v + 1 + countB n rest = v + (countB n rest + 1) := by ring
        simp [this]
      | none =>
        simp only [h, if_pos hb]
        have hnz : ¬ (countB n rest + 1 = 0) := by
          have := countB_nonneg n rest; omega
        simp only [if_neg hnz]
        have heq : StartPoints.prevStart prev n + 1 + countB n rest =
            StartPoints.prevStart prev n + (countB n rest + 1) := by ring
        simp [hb, heq]
    · rw [if_neg hb]
      simp [hb]

theorem countB_pos_iff (n : String) (results : List TaggedResult) :
    0 < countB n results ↔ ∃ r ∈ results, r.backend_name = n := by
  unfold countB
  rw [Int.lt_iff_add_one_le, zero_add]
  constructor
  · intro h
    have hlen : 0 < (results.filter (fun r => r.backend_name == n)).length := by
      exact_mod_cast h
    rw [List.length_pos] at hlen
    obtain ⟨r, hr⟩ := List.exists_mem_of_ne_nil _ hlen
    have := List.mem_filter.mp hr
    exact ⟨r, this.1, by simpa using this.2⟩
  · intro ⟨r, hr, hn⟩
    have : r ∈ results.filter (fun r => r.backend_name == n) :=
      List.mem_filter.mpr ⟨hr, by simpa using hn⟩
    have hlen : 0 < (results.filter (fun r => r.backend_name == n)).length :=
      List.length_pos.mpr (List.ne_nil_of_mem this)
    exact_mod_cast hlen

/-- Claim C2: for every provider with at least one record on the current
page, `StartPoints.format` computes an updated offset equal to the
provider's previous offset plus the count of its records on the page. -/
theorem format_advances_present_provider (results : List TaggedResult)
    (prev : List (String × PyVal)) (n : String)
    (h : ∃ r ∈ results, r.backend_name = n) :
    alookup (StartPoints.startPoints results prev) n =
      some (StartPoints.prevStart prev n + countB n results) := by
  rw [StartPoints.startPoints, alookup_formatLoop]
  have hpos := (countB_pos_iff n results).mpr h
  have hnz : ¬ countB n results = 0 := by omega
  simp [alookup, hnz]

/-- Concrete instance of `format_advances_present_provider`: provider `a`
with previous offset `4` and two records on the page advances to `6`. -/
theorem format_advances_present_witness :
    alookup (StartPoints.startPoints
        [mkTagged "a" 3, mkTagged "b" 2, mkTagged "a" 1] [("a", PyVal.pstr "4")]) "a" =
      some (StartPoints.prevStart [("a", PyVal.pstr "4")] "a" +
        countB "a" [mkTagged "a" 3, mkTagged "b" 2, mkTagged "a" 1]) :=
  format_advances_present_provider _ _ _ ⟨mkTagged "a" 3, by decide, by decide⟩

/-- Claim C3 as stated is false: a provider with no records on the current
page does not keep its prior offset in the recomputed start points — its
entry is dropped altogether. Here provider `b` has prior offset `5`, no
records on the page, and no entry in the output. -/
theorem format_absent_provider_ce :
    StartPoints.prevStart [("b", PyVal.pint 5)] "b" = 5 ∧
    ¬ alookup (StartPoints.startPoints [mkTagged "a" 1] [("b", PyVal.pint 5)]) "b" =
        some 5 := by
  decide

/-- Claim C3 (amended): a provider's offset only advances by the number of
its own records on the current page, and a provider with no records on the
current page has no entry at all in the recomputed start points (its prior
offset is not carried forward). -/
theorem format_absent_provider_dropped (results : List TaggedResult)
    (prev : List (String × PyVal)) (n : String)
    (h : ∀ r ∈ results, r.backend_name ≠ n) :
    alookup (StartPoints.startPoints results prev) n = none := by
  rw [StartPoints.startPoints, alookup_formatLoop]
  have hz : countB n results = 0 := by
    have hnp : ¬ 0 < countB n results := by
      rw [countB_pos_iff]
      push_neg
      exact h
    have := countB_nonneg n results
    omega
  simp [alookup, hz]

/-- Concrete instance of `format_absent_provider_dropped`. -/
theorem format_absent_provider_dropped_witness :
    alookup (StartPoints.startPoints [mkTagged "a" 1] [("b", PyVal.pint 5)]) "b" = none :=
  format_absent_provider_dropped _ _ _ (by decide)

/-- Claim C5: `StartPoints.format` returns the JSON serialization of a list
of name/value pairs whose names are `provider_start_point:<provider name>`
and whose values are the providers' updated offsets (previous offset plus
the provider's record count on the page). -/
theorem format_serializes_updated_offsets (results : List TaggedResult)
    (prev : List (String × PyVal)) :
    StartPoints.format results prev =
      StartPoints.dumpsPairs ((StartPoints.startPoints results prev).map
        (fun p => (StartPoints.formatKey p.1, p.2))) ∧
    ∀ n v, alookup (StartPoints.startPoints results prev) n = some v →
      v = StartPoints.prevStart prev n + countB n results := by
  refine ⟨rfl, ?_⟩
  intro n v h
  rw [StartPoints.startPoints, alookup_formatLoop] at h
  simp only [alookup] at h
  by_cases hz : countB n results = 0
  · simp [hz] at h
  · simp [hz] at h
    omega

/-- Concrete instance of `format_serializes_updated_offsets`. -/
theorem format_serializes_witness :
    StartPoints.format [mkTagged "a" 3] [("a", PyVal.pint 2)] =
      StartPoints.dumpsPairs ((StartPoints.startPoints [mkTagged "a" 3]
        [("a", PyVal.pint 2)]).map (fun p => (StartPoints.formatKey p.1, p.2))) ∧
    (3 : Int) = StartPoints.prevStart [("a", PyVal.pint 2)] "a" +
        countB "a" [mkTagged "a" 3] :=
  ⟨(format_serializes_updated_offsets [mkTagged "a" 3] [("a", PyVal.pint 2)]).1,
   (format_serializes_updated_offsets [mkTagged "a" 3] [("a", PyVal.pint 2)]).2 "a" 3
     (by decide)⟩

/-- Claim C8: `_add_href_to_results` gives an `href` to exactly the records
whose `source` is `wiki` (built from the record's title), leaves records of
every other source without a link, and neither adds, removes, reorders nor
otherwise changes records. -/
theorem add_href_wiki_only (wiki_href : String → String) (results : List TaggedResult) :
    (add_href_to_results wiki_href results).map LinkedResult.tagged = results ∧
    ∀ lr ∈ add_href_to_results wiki_href results,
      (lr.tagged.source = "wiki" → lr.href = some (wiki_href lr.tagged.title)) ∧
      (lr.tagged.source ≠ "wiki" → lr.href = none) := by
  constructor
  · have hcomp : (LinkedResult.tagged ∘ fun r : TaggedResult =>
        ({ tagged := r,
           href := if r.source = "wiki" then some (wiki_href r.title) else none } :
          LinkedResult)) = id := rfl
    rw [add_href_to_results, List.map_map, hcomp, List.map_id]
  · intro lr hlr
    rw [add_href_to_results, List.mem_map] at hlr
    obtain ⟨r, hr, rfl⟩ := hlr
    constructor
    · intro h
      simp only at h ⊢
      simp [h]
    · intro h
      simp only at h ⊢
      simp [h]

/-- Concrete instance of `add_href_wiki_only`: a wiki record gets a link
built from its title, a ticket record gets none, records are unchanged. -/
theorem add_href_wiki_only_witness :
    ((add_href_to_results sampleWikiHref
        [mkTagged "a" 3, tag "b" (mkResult "t" 2 "ticket")]).map LinkedResult.tagged =
      [mkTagged "a" 3, tag "b" (mkResult "t" 2 "ticket")]) ∧
    (LinkedResult.mk (mkTagged "a" 3) (some "/wiki/T")).href =
      some (sampleWikiHref (LinkedResult.mk (mkTagged "a" 3) (some "/wiki/T")).tagged.title) ∧
    (LinkedResult.mk (tag "b" (mkResult "t" 2 "ticket")) none).href = none :=
  ⟨(add_href_wiki_only sampleWikiHref
      [mkTagged "a" 3, tag "b" (mkResult "t" 2 "ticket")]).1,
   ((add_href_wiki_only sampleWikiHref
      [mkTagged "a" 3, tag "b" (mkResult "t" 2 "ticket")]).2
      (LinkedResult.mk (mkTagged "a" 3) (some "/wiki/T")) (by decide)).1 (by decide),
   ((add_href_wiki_only sampleWikiHref
      [mkTagged "a" 3, tag "b" (mkResult "t" 2 "ticket")]).2
      (LinkedResult.mk (tag "b" (mkResult "t" 2 "ticket")) none) (by decide)).2 (by decide)⟩

/-- Claim C9: on an absent or empty query, `process_request` queries no
provider and the response data carries no `results` entry. -/
theorem empty_query_no_backend_calls (wiki_href : String → String)
    (args : List (String × String)) (providers : List Provider)
    (h : isEmptyQuery (getfirst args "q") = true) :
    (process_request wiki_href args providers).calls = [] ∧
    alookup (process_request wiki_href args providers).data "results" = none := by
  simp [process_request, h, criteria_of, alookup]

/-- Concrete instance of `empty_query_no_backend_calls`. -/
theorem empty_query_no_backend_calls_witness :
    (process_request sampleWikiHref emptyQArgs [ceProvider]).calls = [] ∧
    alookup (process_request sampleWikiHref emptyQArgs [ceProvider]).data "results" = none :=
  empty_query_no_backend_calls sampleWikiHref emptyQArgs [ceProvider] (by decide)

/-- Claim C7 as stated is false: with a non-empty query and explicit `page`
and `per_page` request parameters (here 2 and 5), the criteria record every
provider receives contains neither a `page` nor a `per_page` entry — those
keys are added to the response data only after all `query_backend` calls. -/
theorem criteria_missing_page_ce :
    perPageOf ceArgs = 5 ∧ pageOf ceArgs = 2 ∧
    (process_request sampleWikiHref ceArgs [ceProvider]).calls =
      [("p1", criteria_of ceArgs ["p1"])] ∧
    alookup (criteria_of ceArgs ["p1"]) "per_page" = none ∧
    alookup (criteria_of ceArgs ["p1"]) "page" = none := by
  decide

/-- Claim C7 (amended): on a non-empty query the request parameters `q`,
`author`, `source_filters` (under the key `source`), `date_start`,
`date_end` and the per-provider start points are mapped into a single
criteria record, and every registered provider's `query_backend` receives
that identical record; `page` and `per_page` are parsed but are not part of
the criteria the providers see. -/
theorem process_request_same_criteria (wiki_href : String → String)
    (args : List (String × String)) (providers : List Provider)
    (h : isEmptyQuery (getfirst args "q") = false) :
    (process_request wiki_href args providers).calls =
      providers.map (fun p => (p.name, criteria_of args (providers.map Provider.name))) ∧
    (criteria_of args (providers.map Provider.name)).map Prod.fst =
      ["source", "author", "date_start", "date_end", "q", "start_points"] := by
  constructor
  · simp [process_request, h]
  · rfl

/-- Concrete instance of `process_request_same_criteria`. -/
theorem process_request_same_criteria_witness :
    (process_request sampleWikiHref ceArgs [ceProvider]).calls =
      [ceProvider].map (fun p => (p.name, criteria_of ceArgs ([ceProvider].map Provider.name))) ∧
    (criteria_of ceArgs ([ceProvider].map Provider.name)).map Prod.fst =
      ["source", "author", "date_start", "date_end", "q", "start_points"] :=
  process_request_same_criteria sampleWikiHref ceArgs [ceProvider] (by decide)

theorem pairwise_scoreGE_of_const_score (l : List TaggedResult) (k : Int)
    (h : ∀ x ∈ l, x.score = k) : l.Pairwise scoreGE := by
  induction l with
  | nil => exact List.Pairwise.nil
  | cons a t ih =>
    refine List.Pairwise.cons ?_ (ih (fun x hx => h x (List.mem_cons_of_mem a hx)))
    intro b hb
    unfold scoreGE
    rw [h a (List.mem_cons_self a t), h b (List.mem_cons_of_mem a hb)]

theorem filter_score_insertionSort (l : List TaggedResult) (k : Int) :
    (List.insertionSort scoreGE l).filter (fun r => r.score == k) =
      l.filter (fun r => r.score == k) := by
  have hmemk : ∀ x ∈ l.filter (fun r => r.score == k), x.score = k := by
    intro x hx
    have := (List.mem_filter.mp hx).2
    simpa using this
  have hsub : List.Sublist (l.filter (fun r => r.score == k))
      (List.insertionSort scoreGE l) :=
    List.sublist_insertionSort (pairwise_scoreGE_of_const_score _ k hmemk)
      (List.filter_sublist l)
  have hsub2 : List.Sublist (l.filter (fun r => r.score == k))
      ((List.insertionSort scoreGE l).filter (fun r => r.score == k)) := by
    have h1 := hsub.filter (fun r => r.score == k)
    rwa [List.filter_eq_self.mpr (fun a ha => by simp [hmemk a ha])] at h1
  have hperm : ((List.insertionSort scoreGE l).filter (fun r => r.score == k)).Perm
      (l.filter (fun r => r.score == k)) :=
    (List.perm_insertionSort scoreGE l).filter _
  exact (hsub2.eq_of_length hperm.length_eq.symm).symm

theorem sorted_cons_score_max {a : TaggedResult} {t : List TaggedResult}
    (s : List.Sorted scoreGE (a :: t)) : ∀ x ∈ a :: t, x.score ≤ a.score := by
  intro x hx
  rcases List.mem_cons.mp hx with h | h
  · subst h; exact le_refl _
  · exact List.rel_of_sorted_cons s x h

theorem exists_score_of_filter_ne_nil {l : List TaggedResult} {k : Int}
    (h : l.filter (fun r => r.score == k) ≠ []) : ∃ x ∈ l, x.score = k := by
  rcases List.exists_mem_of_ne_nil _ h with ⟨x, hx⟩
  have := List.mem_filter.mp hx
  exact ⟨x, this.1, by simpa using this.2⟩

theorem stable_desc_sort_unique : ∀ (l₁ l₂ : List TaggedResult),
    List.Sorted scoreGE l₁ → List.Sorted scoreGE l₂ →
    (∀ k : Int, l₁.filter (fun r => r.score == k) = l₂.filter (fun r => r.score == k)) →
    l₁ = l₂ := by
  intro l₁
  induction l₁ with
  | nil =>
    intro l₂ _ _ hf
    cases l₂ with
    | nil => rfl
    | cons b t₂ =>
      have hb := hf b.score
      rw [List.filter_nil, List.filter_cons_of_pos (by simp)] at hb
      simp at hb
  | cons a t₁ ih =>
    intro l₂ s₁ s₂ hf
    cases l₂ with
    | nil =>
      have ha := hf a.score
      rw [List.filter_nil, List.filter_cons_of_pos (by simp)] at ha
      simp at ha
    | cons b t₂ =>
      have hscore : a.score = b.score := by
        have h1 : b.score ≤ a.score := by
          have hne : (b :: t₂).filter (fun r => r.score == b.score) ≠ [] := by
            rw [List.filter_cons_of_pos (by simp)]
            simp
          rw [← hf b.score] at hne
          obtain ⟨x, hxmem, hxs⟩ := exists_score_of_filter_ne_nil hne
          calc b.score = x.score := hxs.symm
            _ ≤ a.score := sorted_cons_score_max s₁ x hxmem
        have h2 : a.score ≤ b.score := by
          have hne : (a :: t₁).filter (fun r => r.score == a.score) ≠ [] := by
            rw [List.filter_cons_of_pos (by simp)]
            simp
          rw [hf a.score] at hne
          obtain ⟨x, hxmem, hxs⟩ := exists_score_of_filter_ne_nil hne
          calc a.score = x.score := hxs.symm
            _ ≤ b.score := sorted_cons_score_max s₂ x hxmem
        exact le_antisymm h2 h1
      have hk := hf a.score
      rw [List.filter_cons_of_pos (by simp), List.filter_cons_of_pos (by simp [hscore])] at hk
      injection hk with hhd htl
      subst hhd
      congr 1
      apply ih t₂ s₁.of_cons s₂.of_cons
      intro k
      by_cases hks : k = a.score
      · subst hks
        exact htl
      · have h1 := hf k
        rw [List.filter_cons_of_neg (by simp; exact fun h => hks h.symm),
          List.filter_cons_of_neg (by simp; exact fun h => hks h.symm)] at h1
        exact h1

/-- Claim C1: `_merge_results` equals the specification's reference
definition — tag every record with its provider name, concatenate, sort by
score descending with a stable sort (`IsStableDescSortOf` characterises the
stable descending sort uniquely), and keep the first `per_page` records. -/
theorem merge_results_correct (result_map : List (String × List Result))
    (per_page : Int) (hpp : 0 ≤ per_page) :
    IsStableDescSortOf (tagAll result_map)
      (List.insertionSort scoreGE (tagAll result_map)) ∧
    (List.insertionSort scoreGE (tagAll result_map)).Perm (tagAll result_map) ∧
    (∀ other, IsStableDescSortOf (tagAll result_map) other →
      other = List.insertionSort scoreGE (tagAll result_map)) ∧
    merge_results result_map per_page =
      (List.insertionSort scoreGE (tagAll result_map)).take per_page.toNat := by
  refine ⟨⟨List.sorted_insertionSort scoreGE _, fun k => filter_score_insertionSort _ k⟩,
    List.perm_insertionSort scoreGE _, ?_, ?_⟩
  · intro other ho
    exact stable_desc_sort_unique other _ ho.1 (List.sorted_insertionSort scoreGE _)
      (fun k => (ho.2 k).trans (filter_score_insertionSort _ k).symm)
  · rw [merge_results, pySlice, if_neg (by omega)]

/-- Concrete instance of `merge_results_correct`, with a cross-provider
score tie resolved in concatenation order (stability): `A1` from `alpha`
precedes `B1` from `beta` at equal score 3. -/
theorem merge_results_correct_witness :
    (IsStableDescSortOf (tagAll sampleMap)
      (List.insertionSort scoreGE (tagAll sampleMap)) ∧
    (List.insertionSort scoreGE (tagAll sampleMap)).Perm (tagAll sampleMap) ∧
    (∀ other, IsStableDescSortOf (tagAll sampleMap) other →
      other = List.insertionSort scoreGE (tagAll sampleMap)) ∧
    merge_results sampleMap 3 =
      (List.insertionSort scoreGE (tagAll sampleMap)).take (3 : Int).toNat) ∧
    merge_results sampleMap 3 =
      [tag "beta" (mkResult "B2" 5 "ticket"), tag "alpha" (mkResult "A1" 3 "wiki"),
       tag "beta" (mkResult "B1" 3 "wiki")] :=
  ⟨merge_results_correct sampleMap 3 (by decide), by decide⟩
